import Mathlib

/-!
Verification development for the SAP material-reconciliation repository.

Two engines are embedded from the source:

* the Pooled Allocation engine `cruce_material_sap_procesado_con_split`
  of `cruce_sap.py` (shallow embedding over lists of typed rows, with
  rational quantities standing for the pandas float columns), and
* the Matched Allocation engine `InventoryProcessor` of
  `inventory_processor.py` (state-passing embedding of its `process`
  loop over an association-list master index).

Machine floats appear in the source only through pandas numeric columns;
all quantities manipulated by the algorithms are compared, subtracted and
maxed, which we model exactly over `ℤ` (integer quantities are represented exactly
by the source's floats, and these operations introduce no rounding on them;
none of the claims turns on fractional values).
-/

/-- A raw spreadsheet cell as seen by `pd.to_numeric(..., errors="coerce")`:
either the cell holds (or parses to) the numeric value `q`, or the coercion
yields NaN (strings that do not parse, missing values, and so on).  We do
not re-model Python's numeric parser; its verdict is part of the input. -/
inductive Cell where
  | num (q : ℤ)
  | nonNum
  deriving DecidableEq

/-- `pd.to_numeric(col, errors="coerce").fillna(0)` applied to one cell
(`cruce_sap.py`, lines 56-61): numeric values pass through, everything
else becomes 0. -/
def toNumericCoerce : Cell → ℤ
  | Cell.num q => q
  | Cell.nonNum => 0

/-- One standardized demand row of `df_desc_std` (columns of
`EXPECTED_COLS_DESC` in `cruce_sap.py`). -/
structure DemandRow where
  item : String
  material : String
  descripcionMaterial : String
  codigoObraSgt : String
  planilla : String
  cantidadRaw : Cell
  deriving DecidableEq

/-- One standardized supply row of `df_exist_std` (columns of
`EXPECTED_COLS_EXIST` in `cruce_sap.py`). -/
structure SupplyRow where
  item : String
  descripcionSap : String
  sapRaw : Cell
  deriving DecidableEq

/-- The in-place numeric coercion of the demand table's
`Planilla Cantidad` column (`cruce_sap.py`, lines 56-58). -/
def coerceDemandRow (d : DemandRow) : DemandRow :=
  { d with cantidadRaw := Cell.num (toNumericCoerce d.cantidadRaw) }

/-- The in-place numeric coercion of the supply table's `SAP` column
(`cruce_sap.py`, lines 59-61). -/
def coerceSupplyRow (s : SupplyRow) : SupplyRow :=
  { s with sapRaw := Cell.num (toNumericCoerce s.sapRaw) }

/-- Leading decimal digits of a string, as extracted by the regular
expression `^(\d+)` (`cruce_sap.py`, line 106). -/
def leadingDigits (s : String) : List Char :=
  s.data.takeWhile Char.isDigit

/-- Whether the string begins with at least one decimal digit. -/
def hasLeadingDigits (s : String) : Bool :=
  match s.data with
  | [] => false
  | c :: _ => c.isDigit

/-- Numeric value of a digit run. -/
def digitsToNat (cs : List Char) : ℕ :=
  cs.foldl (fun n c => 10 * n + (c.toNat - ('0').toNat)) 0

/-- The `NumPlanilla` ordering key (`cruce_sap.py`, lines 103-110):
the integer value of the leading digit run of the `Planilla` name, or the
fill value 99999 when the name has no leading digits.  (The source routes
the value through `astype(float)`, which is exact for the digit runs
considered here, below 2^53.) -/
def numPlanilla (s : String) : ℕ :=
  let d := leadingDigits s
  if d = [] then 99999 else digitsToNat d

/-- One row of `df_merged` after the left merge on `Item` and the column
rewrites of `cruce_sap.py`, lines 63-110.  `Option String` fields are NaN
when `none` (a demand item with no supply match). -/
structure MergedRow where
  item : String
  material : String
  /-- `Descripcion Material` after line 89 overwrote it with the supply
  description. -/
  descripcion : Option String
  /-- `CODIGO OBRA SGT` after line 80 overwrote it with the demand table's
  original `Descripcion Material`. -/
  codigoObra : String
  planilla : String
  /-- `Planilla Cantidad`, already numerically coerced. -/
  cantidad : ℤ
  /-- `SAP_Inicial_Item` (renamed from `SAP`, line 99) after `fillna(0)`
  (line 100). -/
  sapInicial : ℤ
  descripcionSap : Option String
  numPlanilla : ℕ
  deriving DecidableEq

/-- Build one merged row from a (coerced) demand row and its optional
supply match, applying the column rewrites of lines 79-110 per row. -/
def mkMerged (d : DemandRow) (s? : Option SupplyRow) : MergedRow :=
  { item := d.item
    material := d.material
    descripcion := s?.map (·.descripcionSap)
    codigoObra := d.descripcionMaterial
    planilla := d.planilla
    cantidad := toNumericCoerce d.cantidadRaw
    sapInicial :=
      match s? with
      | some s => toNumericCoerce s.sapRaw
      | none => 0
    descripcionSap := s?.map (·.descripcionSap)
    numPlanilla := numPlanilla d.planilla }

/-- `pd.merge(df_desc_std, df_exist_std[...], on="Item", how="left")`
(`cruce_sap.py`, lines 66-72): each demand row pairs with every supply row
of the same item, or with NaN supply columns when no supply row matches. -/
def mergeTables (dfDesc : List DemandRow) (dfExist : List SupplyRow) :
    List MergedRow :=
  dfDesc.flatMap fun d =>
    match dfExist.filter (fun s => s.item == d.item) with
    | [] => [mkMerged d none]
    | ss => ss.map fun s => mkMerged d (some s)

/-- Boolean lexicographic comparison on character lists. -/
def charListLt : List Char → List Char → Bool
  | [], [] => false
  | [], _ :: _ => true
  | _ :: _, [] => false
  | a :: as, b :: bs =>
      if a < b then true else if b < a then false else charListLt as bs

/-- Boolean string comparison used by the sort. -/
def strLtB (a b : String) : Bool :=
  charListLt a.data b.data

/-- Sort key comparison of `df_merged.sort_values(["Item", "NumPlanilla"])`
(`cruce_sap.py`, line 111): ascending by item, then by `NumPlanilla`. -/
def rowLe (a b : MergedRow) : Bool :=
  if a.item = b.item then decide (a.numPlanilla ≤ b.numPlanilla)
  else strLtB a.item b.item

/-- Insert one row into an already sorted list. -/
def insertSorted (r : MergedRow) : List MergedRow → List MergedRow
  | [] => [r]
  | x :: xs => if rowLe r x then r :: x :: xs else x :: insertSorted r xs

/-- The sort of line 111 (insertion sort; the claims below depend only on
the multiset of rows, not on tie order). -/
def sortMerged (l : List MergedRow) : List MergedRow :=
  l.foldr insertSorted []

/-- Items in order of first appearance, as enumerated by
`df_merged.groupby("Item", sort=False)` (`cruce_sap.py`, line 115). -/
def distinctItems : List MergedRow → List String
  | [] => []
  | r :: rs => r.item :: (distinctItems rs).filter (fun s => !(s == r.item))

/-- The groups of `groupby("Item", sort=False)`: one group per distinct
item, each keeping the list order of its rows. -/
def groupByItem (l : List MergedRow) : List (List MergedRow) :=
  (distinctItems l).map fun it => l.filter (fun r => r.item == it)

/-- The stock seed of one group: `group.iloc[0]["SAP_Inicial_Item"]`
(`cruce_sap.py`, line 117). -/
def groupStock (g : List MergedRow) : ℤ :=
  (g.head?.map (·.sapInicial)).getD 0

/-- One output row appended to `processed_rows` (`cruce_sap.py`,
lines 119-201): the merged-row dictionary updated with the four result
columns.  The helper columns `NumPlanilla` / `SAP_Inicial_Item` are still
present here; they are dropped by the finishing pass. -/
structure Segment where
  item : String
  material : String
  descripcion : Option String
  codigoObra : String
  planilla : String
  /-- `Planilla Cantidad` of this segment (changed when the line splits). -/
  cantidad : ℤ
  sapAntes : ℤ
  diferencia : ℤ
  sapRestante : ℤ
  descargable : String
  descripcionSap : Option String
  numPlanilla : ℕ
  sapInicial : ℤ
  deriving DecidableEq

/-- Build a segment from a merged row plus the four result columns. -/
def mkSeg (r : MergedRow) (qty sapAntes dif restante : ℤ)
    (desc : String) : Segment :=
  { item := r.item
    material := r.material
    descripcion := r.descripcion
    codigoObra := r.codigoObra
    planilla := r.planilla
    cantidad := qty
    sapAntes := sapAntes
    diferencia := dif
    sapRestante := restante
    descargable := desc
    descripcionSap := r.descripcionSap
    numPlanilla := r.numPlanilla
    sapInicial := r.sapInicial }

/-- Processing of one demand line against the running item stock
(`cruce_sap.py`, lines 119-201).  Returns the one or two segments
appended to `processed_rows` and the updated `stock_actual_item`. -/
def processLine (stock : ℤ) (r : MergedRow) : List Segment × ℤ :=
  let q := r.cantidad
  if q = 0 then
    ([mkSeg r q stock 0 stock "No"], stock)
  else if stock ≥ q then
    ([mkSeg r q stock 0 (stock - q) "Si"], stock - q)
  else
    (((if stock > 0 then [mkSeg r stock stock 0 0 "Si"] else []) ++
        [mkSeg r (q - stock) 0 (q - stock) 0 "No"]), 0)

/-- The per-item loop of `cruce_sap.py`, lines 119-201: a left fold of
`processLine` over the group's rows, concatenating the emitted segments. -/
def processGroup (stock : ℤ) : List MergedRow → List Segment
  | [] => []
  | r :: rs =>
      let p := processLine stock r
      p.1 ++ processGroup p.2 rs

/-- Instrumented variant of `processGroup` pairing every processed demand
line with the list of segments it emitted. -/
def processGroupAnn (stock : ℤ) :
    List MergedRow → List (MergedRow × List Segment)
  | [] => []
  | r :: rs =>
      let p := processLine stock r
      (r, p.1) :: processGroupAnn p.2 rs

/-- The key sets of the dictionaries in `processed_rows`: every merged
column plus the four result columns. -/
def processedKeys : List String :=
  ["Item", "MATERIAL", "Descripcion Material", "CODIGO OBRA SGT",
   "Planilla", "Planilla Cantidad", "Descripcion_SAP", "SAP_Inicial_Item",
   "NumPlanilla", "SAP Antes", "Diferencia", "SAP Restante", "Descargable"]

/-- `final_column_order` of `cruce_sap.py`, lines 217-229. -/
def finalColumnOrder : List String :=
  ["Item", "MATERIAL", "Descripcion Material", "CODIGO OBRA SGT",
   "Planilla", "Planilla Cantidad", "SAP Antes", "Diferencia",
   "SAP Restante", "Descargable"]

/-- The finished output ledger: its column list and its rows. -/
structure Ledger where
  columns : List String
  rows : List Segment
  deriving DecidableEq

/-- The finishing pass of `cruce_sap.py`, lines 203-238:
`pd.DataFrame(processed_rows)` (whose columns are empty when no row was
produced), the drop of the two helper columns, and the restriction to the
columns of `final_column_order` that are present.  Note that it always
returns a ledger; no failure path exists here (the only `return None`
paths of the source are the input-schema checks of lines 42-53, which a
typed table satisfies by construction). -/
def buildLedger (rows : List Segment) : Ledger :=
  let rawCols : List String := if rows.isEmpty then [] else processedKeys
  let colsAfterDrop :=
    rawCols.filter fun c =>
      !(c == "NumPlanilla") && !(c == "SAP_Inicial_Item")
  { columns := finalColumnOrder.filter (fun c => colsAfterDrop.contains c)
    rows := rows }

/-- Result of one run of the pooled engine.  The source mutates its two
argument DataFrames in place (the numeric coercions of lines 56-61); the
embedding returns the post-call contents of both tables explicitly. -/
structure PooledResult where
  demandAfter : List DemandRow
  supplyAfter : List SupplyRow
  ledger : Ledger
  deriving DecidableEq

/-- The merged, rewritten and sorted table of `cruce_sap.py`,
lines 56-111, starting from the raw input tables. -/
def mergedOf (dfDesc : List DemandRow) (dfExist : List SupplyRow) :
    List MergedRow :=
  sortMerged (mergeTables (dfDesc.map coerceDemandRow)
    (dfExist.map coerceSupplyRow))

/-- `cruce_material_sap_procesado_con_split` (`cruce_sap.py`, lines
24-238): numeric coercion of both tables in place, left merge, column
rewrites, sort, per-item allocation loop, finishing pass. -/
def cruce_material_sap_procesado_con_split
    (dfDesc : List DemandRow) (dfExist : List SupplyRow) : PooledResult :=
  let processed :=
    (groupByItem (mergedOf dfDesc dfExist)).flatMap fun g =>
      processGroup (groupStock g) g
  { demandAfter := dfDesc.map coerceDemandRow
    supplyAfter := dfExist.map coerceSupplyRow
    ledger := buildLedger processed }

/-- Instrumented engine run: the same pipeline with every processed
demand line paired with its emitted segments. -/
def cruceAnnotated (dfDesc : List DemandRow) (dfExist : List SupplyRow) :
    List (MergedRow × List Segment) :=
  (groupByItem (mergedOf dfDesc dfExist)).flatMap fun g =>
    processGroupAnn (groupStock g) g

/-! ## Matched Allocation: `InventoryProcessor` (`inventory_processor.py`) -/

/-- A calendar date, the payload of a successfully parsed
`FECHA DESCAR SGT` value. -/
structure MDate where
  day : ℕ
  month : ℕ
  year : ℕ
  deriving DecidableEq

/-- One master record as indexed by `load_master`
(`inventory_processor.py`, lines 35-48): rows without `CODIGO OBRA SGT`
were already dropped, and the date column went through
`pd.to_datetime(..., dayfirst=True, errors="coerce")`, so it holds either
a datetime (`some`) or NaT (`none`).  We do not re-model the pandas date
parser; its verdict is part of the input.  `saldo` is `none` when the
record has no `SALDO` key (the source reads it with
`record.get("SALDO", 0)`). -/
structure MasterRecord where
  codigoObra : String
  item : String
  saldo : Option ℤ
  fecha : Option MDate
  deriving DecidableEq

/-- The index key `(row["CODIGO OBRA SGT"], row["Item"])`. -/
def masterKey (r : MasterRecord) : String × String :=
  (r.codigoObra, r.item)

/-- The master index: a Python dict modelled as an association list with
pairwise distinct keys (insertion order preserved, as `dict` does). -/
abbrev MasterIndex : Type :=
  List ((String × String) × MasterRecord)

/-- Dict assignment `d[k] = v`: overwrite in place if the key is present
(keeping its position), append otherwise. -/
def insertIdx (idx : MasterIndex) (k : String × String) (v : MasterRecord) :
    MasterIndex :=
  match idx with
  | [] => [(k, v)]
  | (k', v') :: t =>
      if k' = k then (k, v) :: t else (k', v') :: insertIdx t k v

/-- The dict comprehension of `load_master` (lines 45-48) building
`self.master_index` from the master rows (later rows with a duplicate key
overwrite earlier ones, as in a Python dict). -/
def buildIndex (rows : List MasterRecord) : MasterIndex :=
  rows.foldl (fun idx r => insertIdx idx (masterKey r) r) []

/-- Dict lookup. -/
def lookupIdx (idx : MasterIndex) (k : String × String) :
    Option MasterRecord :=
  match idx with
  | [] => none
  | (k', v) :: t => if k' = k then some v else lookupIdx t k

/-- `self.master_index.pop(key, None)`: the looked-up value (if any) and
the index with that binding removed. -/
def popIdx (idx : MasterIndex) (k : String × String) :
    Option MasterRecord × MasterIndex :=
  match idx with
  | [] => (none, [])
  | (k', v) :: t =>
      if k' = k then (some v, t)
      else
        let p := popIdx t k
        (p.1, (k', v) :: p.2)

/-- One row of the dynamic (demand) table as read by `process`
(`inventory_processor.py`, lines 59-66). -/
structure DynamicRow where
  codigoObra : String
  item : String
  cantidad : ℤ
  descargable : String
  deriving DecidableEq

/-- The lookup key of a demand line (line 60). -/
def dynKey (d : DynamicRow) : String × String :=
  (d.codigoObra, d.item)

/-- `drow["Descargable"] in ("si", "sí")` (line 66).  Note the source
compares against these lowercase literals even though `load_dynamic`
upper-cases the column. -/
def descAffirmative (s : String) : Bool :=
  s == "si" || s == "sí"

/-- The run parameters stored by `__init__` (lines 11-27);
`newJobNumber` already went through `zfill(2)` there. -/
structure RunParams where
  observation : String
  newWorkOrder : String
  newJobNumber : String
  deriving DecidableEq

/-- Python `str.zfill(width)`: pad on the left with the character 0 up to
`width`; a leading sign stays in front of the padding. -/
def zfill (width : ℕ) (s : String) : String :=
  if s.length ≥ width then s
  else
    match s.data with
    | '+' :: rest =>
        "+" ++ String.mk (List.replicate (width - s.length) '0') ++
          String.mk rest
    | '-' :: rest =>
        "-" ++ String.mk (List.replicate (width - s.length) '0') ++
          String.mk rest
    | _ => String.mk (List.replicate (width - s.length) '0') ++ s

/-- The constructor `InventoryProcessor.__init__` restricted to the three
run parameters: it stores the observation and work-order texts and
zero-pads the job number with `zfill(2)` (line 27). -/
def mkParams (observation newWorkOrder newJobNumber : String) : RunParams :=
  { observation := observation
    newWorkOrder := newWorkOrder
    newJobNumber := zfill 2 newJobNumber }

/-- The date cell of an output row: a raw datetime, NaT, or the formatted
text produced by the stamping loop. -/
inductive DateCell where
  | dt (d : MDate)
  | nat
  | txt (s : String)
  deriving DecidableEq

/-- Decimal digits of `n` left-padded with zeros to `width`. -/
def padNat (width : ℕ) (n : ℕ) : String :=
  zfill width (Nat.repr n)

/-- `fecha.strftime("%d/%m/%Y")` for a parsed date, and the empty string
for NaT (`pd.notna(fecha)` is false exactly on NaT here) — lines
106-110. -/
def formatFecha : Option MDate → String
  | some d => padNat 2 d.day ++ "/" ++ padNat 2 d.month ++ "/" ++
      padNat 4 d.year
  | none => ""

/-- One entry of `self.result_rows`: the master-record dictionary, whose
date cell may have been replaced by text, extended (`none` = key absent)
with the allocation and metadata keys set by `process`. -/
structure ResultRow where
  codigoObra : String
  item : String
  saldo : Option ℤ
  fecha : DateCell
  cantDesc : Option ℤ
  cruzado : Option String
  observacion : Option String
  nuevaObra : Option String
  nuevoTrabajo : Option String
  obraTrabItem : Option String
  deriving DecidableEq

/-- A master record emitted as-is (the non-eligible branch of line 68 and
the leftover extension of line 114): no allocation or metadata keys. -/
def passThrough (r : MasterRecord) : ResultRow :=
  { codigoObra := r.codigoObra
    item := r.item
    saldo := r.saldo
    fecha :=
      match r.fecha with
      | some d => DateCell.dt d
      | none => DateCell.nat
    cantDesc := none
    cruzado := none
    observacion := none
    nuevaObra := none
    nuevoTrabajo := none
    obraTrabItem := none }

/-- The `strftime`-or-empty value computed by the stamping loop on a rec's
date cell (lines 107-110).  In `process` the cell is always a datetime or
NaT, copied out of a master record; the `txt` case cannot arise there. -/
def stampFecha : DateCell → String
  | DateCell.dt d => formatFecha (some d)
  | DateCell.nat => ""
  | DateCell.txt _ => ""

/-- The per-rec body of the stamping loop (`inventory_processor.py`,
lines 97-111): metadata keys, the composite label, and the date
formatting. -/
def stampRow (p : RunParams) (r : ResultRow) : ResultRow :=
  { r with
    observacion := some p.observation
    nuevaObra := some p.newWorkOrder
    nuevoTrabajo := some p.newJobNumber
    obraTrabItem :=
      some (p.newWorkOrder ++ p.newJobNumber ++ "-" ++ r.item)
    fecha := DateCell.txt (stampFecha r.fecha) }

/-- State threaded through the `process` loop: the consumable master
index and the rows accumulated so far. -/
structure ProcState where
  index : MasterIndex
  resultRows : List ResultRow
  deriving DecidableEq

/-- The `recs` list built for an eligible demand line (lines 71-95):
one row when the balance suffices, a used/deficit pair otherwise. -/
def allocRecs (record : MasterRecord) (qty : ℤ) : List ResultRow :=
  let saldo := record.saldo.getD 0
  if saldo ≥ qty then
    [{ passThrough record with
        cantDesc := some qty
        saldo := some (saldo - qty)
        cruzado := some (if saldo - qty = 0 then "SI" else "NO") }]
  else
    let used := max saldo 0
    let deficit := qty - used
    [{ passThrough record with
        cantDesc := some used
        saldo := some 0
        cruzado := some "SI" },
     { passThrough record with
        cantDesc := some deficit
        saldo := some (-deficit)
        cruzado := some "NO" }]

/-- One iteration of the `process` loop (`inventory_processor.py`,
lines 59-111) on one demand line.  (`pop` removes the matched record from
the index in every matched branch.  The source's `if not record` test is
a truthiness check; a record dictionary built by `load_master` is never
empty, so it is equivalent to the `None` test modelled here.) -/
def processStep (p : RunParams) (st : ProcState) (drow : DynamicRow) :
    ProcState :=
  let popped := popIdx st.index (dynKey drow)
  match popped.1 with
  | none => { st with index := popped.2 }
  | some record =>
      if descAffirmative drow.descargable = false then
        { index := popped.2
          resultRows := st.resultRows ++ [passThrough record] }
      else
        { index := popped.2
          resultRows := st.resultRows ++
            (allocRecs record drow.cantidad).map (stampRow p) }

/-- `InventoryProcessor.process` (`inventory_processor.py`, lines
57-114): fold the loop over the demand lines, then append every master
record still in the index (line 114). -/
def process (p : RunParams) (idx0 : MasterIndex)
    (dynRows : List DynamicRow) : List ResultRow :=
  let st := dynRows.foldl (processStep p) { index := idx0, resultRows := [] }
  st.resultRows ++ st.index.map (fun kv => passThrough kv.2)

/-- The rows a single loop iteration appends to `result_rows`. -/
def emittedRows (p : RunParams) (st : ProcState) (drow : DynamicRow) :
    List ResultRow :=
  (processStep p st drow).resultRows.drop st.resultRows.length

/-- The loop state after the first `n` demand lines of a run that starts
from the index `load_master` built. -/
def stateAt (p : RunParams) (master : List MasterRecord)
    (dynRows : List DynamicRow) : ℕ → ProcState
  | 0 => { index := buildIndex master, resultRows := [] }
  | n + 1 =>
      match dynRows.get? n with
      | some d => processStep p (stateAt p master dynRows n) d
      | none => stateAt p master dynRows n

/-! ## Concrete inputs used by the witnesses and counterexamples -/

/-- Placeholder demand row (only used as a `headD` fallback). -/
def defaultDemandRow : DemandRow :=
  { item := "", material := "", descripcionMaterial := "",
    codigoObraSgt := "", planilla := "", cantidadRaw := Cell.nonNum }

/-- Placeholder merged row (only used as a `headD` fallback). -/
def defaultMergedRow : MergedRow :=
  mkMerged defaultDemandRow none

/-- Placeholder segment (only used as a `headD` fallback). -/
def defaultSegment : Segment :=
  mkSeg defaultMergedRow 0 0 0 0 ""

/-- Placeholder result row (only used as a `headD` fallback). -/
def defaultResultRow : ResultRow :=
  passThrough { codigoObra := "", item := "", saldo := none, fecha := none }

/-- C1 counterexample input: one demand line of quantity 3 on an item
whose supply stock is the (numeric, hence surviving coercion) value -5. -/
def exC1xDemand : List DemandRow :=
  [{ item := "A", material := "M", descripcionMaterial := "D",
     codigoObraSgt := "C", planilla := "P", cantidadRaw := Cell.num 3 }]

/-- C1 counterexample supply table. -/
def exC1xSupply : List SupplyRow :=
  [{ item := "A", descripcionSap := "DS", sapRaw := Cell.num (-5) }]

/-- C1 witness input (scenario A of the spec): stock 10, lines of
priority 1 and 2 requesting 4 and 9. -/
def exC1wDemand : List DemandRow :=
  [{ item := "A", material := "M", descripcionMaterial := "D",
     codigoObraSgt := "C", planilla := "1-P", cantidadRaw := Cell.num 4 },
   { item := "A", material := "M", descripcionMaterial := "D",
     codigoObraSgt := "C", planilla := "2-P", cantidadRaw := Cell.num 9 }]

/-- C1 witness supply table. -/
def exC1wSupply : List SupplyRow :=
  [{ item := "A", descripcionSap := "DS", sapRaw := Cell.num 10 }]

/-- The first annotated line of the C1 witness run. -/
def exC1wPair : MergedRow × List Segment :=
  (cruceAnnotated exC1wDemand exC1wSupply).headD (defaultMergedRow, [])

/-- C3 counterexample input: a numeric negative requested quantity. -/
def exC3xDemand : List DemandRow :=
  [{ item := "A", material := "M", descripcionMaterial := "D",
     codigoObraSgt := "C", planilla := "P", cantidadRaw := Cell.num (-2) }]

/-- C3 witness input: a non-numeric requested quantity. -/
def exC3wDemand : List DemandRow :=
  [{ item := "A", material := "M", descripcionMaterial := "D",
     codigoObraSgt := "C", planilla := "P", cantidadRaw := Cell.nonNum }]

/-- The first post-coercion demand row of the C3 witness run. -/
def exC3wRow : DemandRow :=
  (cruce_material_sap_procesado_con_split exC3wDemand []).demandAfter.headD
    defaultDemandRow

/-- C6 counterexample input: a zero-quantity demand line over negative
numeric supply stock. -/
def exC6xDemand : List DemandRow :=
  [{ item := "A", material := "M", descripcionMaterial := "D",
     codigoObraSgt := "C", planilla := "P", cantidadRaw := Cell.num 0 }]

/-- C6 counterexample supply table. -/
def exC6xSupply : List SupplyRow :=
  [{ item := "A", descripcionSap := "DS", sapRaw := Cell.num (-5) }]

/-- C6 witness input: a line requesting more than the available stock. -/
def exC6wDemand : List DemandRow :=
  [{ item := "A", material := "M", descripcionMaterial := "D",
     codigoObraSgt := "C", planilla := "1-P", cantidadRaw := Cell.num 9 }]

/-- C6 witness supply table. -/
def exC6wSupply : List SupplyRow :=
  [{ item := "A", descripcionSap := "DS", sapRaw := Cell.num 4 }]

/-- The first output segment of the C6 witness run. -/
def exC6wSeg : Segment :=
  (cruce_material_sap_procesado_con_split exC6wDemand
    exC6wSupply).ledger.rows.headD defaultSegment

/-- C9 witness input: a single demand row (so the raw row sequence is
nonempty). -/
def exC9wDemand : List DemandRow :=
  [{ item := "B", material := "M", descripcionMaterial := "D",
     codigoObraSgt := "C", planilla := "P", cantidadRaw := Cell.num 1 }]

/-- C2 counterexample run parameters (the values of `main()`). -/
def exC2xParams : RunParams :=
  mkParams "PLANILLA DESCARGUE MATERIAL" "206012025020002" "3"

/-- C2 counterexample master table: one record. -/
def exC2xMaster : List MasterRecord :=
  [{ codigoObra := "OBRA1", item := "IT1", saldo := some 10,
     fecha := some { day := 27, month := 5, year := 2025 } }]

/-- C2 counterexample demand table: one matching non-eligible line. -/
def exC2xDyn : List DynamicRow :=
  [{ codigoObra := "OBRA1", item := "IT1", cantidad := 5,
     descargable := "NO" }]

/-- C2 witness master record. -/
def exC2wRecord : MasterRecord :=
  { codigoObra := "OBRA1", item := "IT1", saldo := some 10,
    fecha := some { day := 27, month := 5, year := 2025 } }

/-- C2 witness loop state: the freshly built index. -/
def exC2wState : ProcState :=
  { index := buildIndex [exC2wRecord], resultRows := [] }

/-- C2 witness demand line: matching and eligible. -/
def exC2wDrow : DynamicRow :=
  { codigoObra := "OBRA1", item := "IT1", cantidad := 5,
    descargable := "si" }

/-- The first row the C2 witness step emits. -/
def exC2wRow : ResultRow :=
  (emittedRows (mkParams "OBS" "WO" "3") exC2wState exC2wDrow).headD
    defaultResultRow

/-- C4 witness master record (scenario D of the spec: balance 5). -/
def exC4wRecord : MasterRecord :=
  { codigoObra := "OBRA4", item := "IT4", saldo := some 5,
    fecha := none }

/-- C4 witness loop state. -/
def exC4wState : ProcState :=
  { index := buildIndex [exC4wRecord], resultRows := [] }

/-- C4 witness demand line: eligible, requesting 8 against balance 5. -/
def exC4wDrow : DynamicRow :=
  { codigoObra := "OBRA4", item := "IT4", cantidad := 8,
    descargable := "si" }

/-- C4 witness run parameters. -/
def exC4wParams : RunParams :=
  mkParams "OBS" "WO" "7"

/-- C5 run parameters. -/
def exC5Params : RunParams :=
  mkParams "OBS" "WO" "3"

/-- C5 master table: one record. -/
def exC5Master : List MasterRecord :=
  [{ codigoObra := "W1", item := "I1", saldo := some 1, fecha := none }]

/-- C5 demand table: two lines with the same composite key. -/
def exC5Dyn : List DynamicRow :=
  [{ codigoObra := "W1", item := "I1", cantidad := 1, descargable := "NO" },
   { codigoObra := "W1", item := "I1", cantidad := 1, descargable := "NO" }]

/-- C8 counterexample master table: one record whose date failed
parsing. -/
def exC8xMaster : List MasterRecord :=
  [{ codigoObra := "W2", item := "I2", saldo := some 4, fecha := none }]

/-- C8 counterexample demand table: one matching non-eligible line. -/
def exC8xDyn : List DynamicRow :=
  [{ codigoObra := "W2", item := "I2", cantidad := 2,
     descargable := "NO" }]

/-- C8 run parameters. -/
def exC8Params : RunParams :=
  mkParams "OBS" "WO" "3"

/-- C8 witness master record: unparseable date. -/
def exC8wRecord : MasterRecord :=
  { codigoObra := "W3", item := "I3", saldo := some 4, fecha := none }

/-- C8 witness loop state. -/
def exC8wState : ProcState :=
  { index := buildIndex [exC8wRecord], resultRows := [] }

/-- C8 witness demand line (eligible via the accented variant). -/
def exC8wDrow : DynamicRow :=
  { codigoObra := "W3", item := "I3", cantidad := 2, descargable := "sí" }

/-- The first row the C8 witness step emits. -/
def exC8wRow : ResultRow :=
  (emittedRows exC8Params exC8wState exC8wDrow).headD defaultResultRow

/-- Whether a raw cell is either non-numeric/missing (so coercion sends
it to 0) or holds a nonnegative number. -/
def cellNonneg : Cell → Bool
  | Cell.num q => decide (0 ≤ q)
  | Cell.nonNum => true

/-! ## Lemmas about the pooled engine -/

theorem mem_insertSorted {a r : MergedRow} {l : List MergedRow} :
    a ∈ insertSorted r l ↔ a = r ∨ a ∈ l := by
  induction l with
  | nil => simp [insertSorted]
  | cons x xs ih =>
      cases hb : rowLe r x <;>
        simp [insertSorted, hb, List.mem_cons, ih] <;> tauto

theorem sortMerged_cons (x : MergedRow) (xs : List MergedRow) :
    sortMerged (x :: xs) = insertSorted x (sortMerged xs) :=
  rfl

theorem mem_sortMerged {a : MergedRow} {l : List MergedRow} :
    a ∈ sortMerged l ↔ a ∈ l := by
  induction l with
  | nil => simp [sortMerged]
  | cons x xs ih =>
      rw [sortMerged_cons, mem_insertSorted, ih]
      simp [List.mem_cons]

theorem mem_of_mem_groupByItem {g : List MergedRow} {r : MergedRow}
    {l : List MergedRow} (hg : g ∈ groupByItem l) (hr : r ∈ g) : r ∈ l := by
  rcases List.mem_map.mp hg with ⟨it, _, rfl⟩
  exact List.mem_of_mem_filter hr

theorem sapInicial_nonneg_of_mem_mergeTables {dfDesc : List DemandRow}
    {dfExist : List SupplyRow}
    (h : ∀ s ∈ dfExist, 0 ≤ toNumericCoerce s.sapRaw) {m : MergedRow}
    (hm : m ∈ mergeTables dfDesc (dfExist.map coerceSupplyRow)) :
    0 ≤ m.sapInicial := by
  rcases List.mem_flatMap.mp hm with ⟨d, _, hmd⟩
  rcases hfil : (dfExist.map coerceSupplyRow).filter
      (fun s => s.item == d.item) with _ | ⟨s0, ss⟩
  · rw [hfil] at hmd
    simp only [List.mem_singleton] at hmd
    subst hmd
    simp [mkMerged]
  · rw [hfil] at hmd
    rcases List.mem_map.mp hmd with ⟨s, hs, rfl⟩
    have hs' : s ∈ (dfExist.map coerceSupplyRow).filter
        (fun s => s.item == d.item) := by rw [hfil]; exact hs
    have hs'' : s ∈ dfExist.map coerceSupplyRow :=
      List.mem_of_mem_filter hs'
    rcases List.mem_map.mp hs'' with ⟨sraw, hsraw, rfl⟩
    simpa [mkMerged, coerceSupplyRow, toNumericCoerce] using h sraw hsraw

theorem sapInicial_nonneg_of_mem_mergedOf {dfDesc : List DemandRow}
    {dfExist : List SupplyRow}
    (h : ∀ s ∈ dfExist, 0 ≤ toNumericCoerce s.sapRaw) {m : MergedRow}
    (hm : m ∈ mergedOf dfDesc dfExist) : 0 ≤ m.sapInicial := by
  unfold mergedOf at hm
  exact sapInicial_nonneg_of_mem_mergeTables h (mem_sortMerged.mp hm)

theorem groupStock_nonneg {dfDesc : List DemandRow} {dfExist : List SupplyRow}
    (h : ∀ s ∈ dfExist, 0 ≤ toNumericCoerce s.sapRaw) {g : List MergedRow}
    (hg : g ∈ groupByItem (mergedOf dfDesc dfExist)) : 0 ≤ groupStock g := by
  cases hh : g.head? with
  | none => simp [groupStock, hh]
  | some r =>
      have hrg : r ∈ g := List.mem_of_mem_head? hh
      have hrm := mem_of_mem_groupByItem hg hrg
      simpa [groupStock, hh] using
        sapInicial_nonneg_of_mem_mergedOf h hrm

theorem processLine_qtySum {stock : ℤ} {r : MergedRow} (h : 0 ≤ stock) :
    (((processLine stock r).1.map (·.cantidad)).sum) = r.cantidad := by
  simp only [processLine]
  split_ifs with h1 h2 h3 <;> simp [mkSeg] <;> omega

theorem processLine_snd_nonneg {stock : ℤ} {r : MergedRow} (h : 0 ≤ stock) :
    0 ≤ (processLine stock r).2 := by
  simp only [processLine]
  split_ifs with h1 h2 <;> simp <;> omega

theorem processLine_restante_nonneg {stock : ℤ} {r : MergedRow}
    (h : 0 ≤ stock) :
    ∀ seg ∈ (processLine stock r).1, 0 ≤ seg.sapRestante := by
  simp only [processLine]
  split_ifs with h1 h2 h3 <;> simp [mkSeg] <;> omega

theorem processLine_fst_ne_nil {stock : ℤ} {r : MergedRow} :
    (processLine stock r).1 ≠ [] := by
  simp only [processLine]
  split_ifs <;> simp

theorem processGroupAnn_qtySum {l : List MergedRow} :
    ∀ {stock : ℤ}, 0 ≤ stock →
      ∀ pr ∈ processGroupAnn stock l,
        ((pr.2.map (·.cantidad)).sum) = pr.1.cantidad := by
  induction l with
  | nil => intro stock _ pr hpr; simp [processGroupAnn] at hpr
  | cons r rs ih =>
      intro stock h pr hpr
      simp only [processGroupAnn, List.mem_cons] at hpr
      rcases hpr with rfl | hpr
      · exact processLine_qtySum h
      · exact ih (processLine_snd_nonneg h) pr hpr

theorem processGroup_restante {l : List MergedRow} :
    ∀ {stock : ℤ}, 0 ≤ stock →
      ∀ seg ∈ processGroup stock l, 0 ≤ seg.sapRestante := by
  induction l with
  | nil => intro stock _ seg hseg; simp [processGroup] at hseg
  | cons r rs ih =>
      intro stock h seg hseg
      simp only [processGroup, List.mem_append] at hseg
      rcases hseg with hseg | hseg
      · exact processLine_restante_nonneg h seg hseg
      · exact ih (processLine_snd_nonneg h) seg hseg

/-! ## Pooled-engine claims -/

/-- C1, counterexample to the claim as stated: with a demand line
requesting 3 on an item whose (numeric, coercion-surviving) supply stock
is -5, the pooled engine emits a single segment carrying quantity 8, so
the segment quantities of that line sum to 8, not to the line's coerced
requested quantity 3. -/
theorem c1_counterexample :
    ((cruceAnnotated exC1xDemand exC1xSupply).map fun pr =>
        ((pr.2.map (·.cantidad)).sum, pr.1.cantidad)) = [(8, 3)] ∧
      (8 : ℤ) ≠ 3 :=
  ⟨by decide, by decide⟩

/-- C1, amended: provided every supply stock value is nonnegative after
coercion, every demand line processed by the pooled engine has the sum of
the quantities of its emitted segments equal to its coerced requested
quantity. -/
theorem c1_conservation (dfDesc : List DemandRow) (dfExist : List SupplyRow)
    (hsup : ∀ s ∈ dfExist, 0 ≤ toNumericCoerce s.sapRaw) :
    ∀ pr ∈ cruceAnnotated dfDesc dfExist,
      ((pr.2.map (·.cantidad)).sum) = pr.1.cantidad := by
  intro pr hpr
  simp only [cruceAnnotated] at hpr
  rcases List.mem_flatMap.mp hpr with ⟨g, hg, hpg⟩
  exact processGroupAnn_qtySum (groupStock_nonneg hsup hg) pr hpg

/-- C1, witness: the amended conservation theorem applied to scenario A
of the spec (stock 10, requests 4 and 9). -/
theorem c1_conservation_witness :
    (exC1wSupply.all fun s => decide (0 ≤ toNumericCoerce s.sapRaw)) = true ∧
      ((exC1wPair.2.map (·.cantidad)).sum) = exC1wPair.1.cantidad :=
  ⟨by decide,
    c1_conservation exC1wDemand exC1wSupply (by decide) exC1wPair (by decide)⟩

/-- C3, counterexample to the claim as stated: a numeric negative
requested quantity (-2) survives the engine's coercion step, so the
coerced requested quantity is not nonnegative. -/
theorem c3_counterexample :
    ((cruce_material_sap_procesado_con_split exC3xDemand []).demandAfter.map
        fun d => toNumericCoerce d.cantidadRaw) = [-2] ∧
      ¬ (0 : ℤ) ≤ -2 :=
  ⟨by decide, by decide⟩

/-- C3, amended: the coercion step only replaces non-numeric or missing
values by 0, so the requested quantity of every demand line is
nonnegative after coercion provided every numeric input value was
already nonnegative. -/
theorem c3_coercion_nonneg (dfDesc : List DemandRow)
    (dfExist : List SupplyRow)
    (h : ∀ d ∈ dfDesc, cellNonneg d.cantidadRaw = true) :
    ∀ d' ∈ (cruce_material_sap_procesado_con_split dfDesc
        dfExist).demandAfter,
      0 ≤ toNumericCoerce d'.cantidadRaw := by
  intro d' hd'
  simp only [cruce_material_sap_procesado_con_split] at hd'
  rcases List.mem_map.mp hd' with ⟨d, hd, rfl⟩
  have hc := h d hd
  cases hraw : d.cantidadRaw with
  | num q =>
      rw [hraw] at hc
      simp only [cellNonneg, decide_eq_true_eq] at hc
      simpa [coerceDemandRow, toNumericCoerce, hraw] using hc
  | nonNum => simp [coerceDemandRow, toNumericCoerce, hraw]

/-- C3, witness: the amended theorem applied to a table whose only
requested quantity is non-numeric (coerced to 0). -/
theorem c3_coercion_nonneg_witness :
    (exC3wDemand.all fun d => cellNonneg d.cantidadRaw) = true ∧
      0 ≤ toNumericCoerce exC3wRow.cantidadRaw :=
  ⟨by decide,
    c3_coercion_nonneg exC3wDemand [] (by decide) exC3wRow (by decide)⟩

/-- C6, counterexample to the claim as stated: with supply stock -5 and a
zero-quantity demand line, the emitted segment's stock-after value
(`SAP Restante`) is -5, which is negative. -/
theorem c6_counterexample :
    ((cruce_material_sap_procesado_con_split exC6xDemand
        exC6xSupply).ledger.rows.map (·.sapRestante)) = [-5] ∧
      ¬ (0 : ℤ) ≤ -5 :=
  ⟨by decide, by decide⟩

/-- C6, amended: provided every supply stock value is nonnegative after
coercion, the stock-after value of every emitted segment is
nonnegative. -/
theorem c6_restante_nonneg (dfDesc : List DemandRow)
    (dfExist : List SupplyRow)
    (hsup : ∀ s ∈ dfExist, 0 ≤ toNumericCoerce s.sapRaw) :
    ∀ seg ∈ (cruce_material_sap_procesado_con_split dfDesc
        dfExist).ledger.rows,
      0 ≤ seg.sapRestante := by
  intro seg hseg
  simp only [cruce_material_sap_procesado_con_split, buildLedger] at hseg
  rcases List.mem_flatMap.mp hseg with ⟨g, hg, hsg⟩
  exact processGroup_restante (groupStock_nonneg hsup hg) seg hsg

/-- C6, witness: the amended theorem applied to a run with stock 4 and a
request of 9 (a split line). -/
theorem c6_restante_nonneg_witness :
    (exC6wSupply.all fun s => decide (0 ≤ toNumericCoerce s.sapRaw)) = true ∧
      0 ≤ exC6wSeg.sapRestante :=
  ⟨by decide,
    c6_restante_nonneg exC6wDemand exC6wSupply (by decide) exC6wSeg
      (by decide)⟩

theorem numPlanilla_sentinel {m : String} (hm : hasLeadingDigits m = false) :
    numPlanilla m = 99999 := by
  unfold hasLeadingDigits at hm
  unfold numPlanilla leadingDigits
  cases hd : m.data with
  | nil => simp
  | cons c cs =>
      rw [hd] at hm
      simp only [] at hm
      simp [List.takeWhile_cons, hm]

/-- C7, counterexample to the claim as stated: the name "100000" begins
with digits and gets key 100000, while the digitless name "abc" gets the
fill key 99999, so the digitless name's key is not larger than every
numeric key (and the numerically-named line is not consumed first). -/
theorem c7_counterexample :
    hasLeadingDigits "100000" = true ∧ hasLeadingDigits "abc" = false ∧
      ¬ numPlanilla "100000" < numPlanilla "abc" :=
  ⟨by decide, by decide, by decide⟩

/-- C7, amended: the fill key of a name without leading digits is 99999,
so a numerically-named line precedes a digitless one whenever its leading
number is below 99999 (names with leading number at least 99999 are not
ordered before digitless names). -/
theorem c7_priority (n m : String) (hn : hasLeadingDigits n = true)
    (hm : hasLeadingDigits m = false)
    (hsmall : numPlanilla n < 99999) :
    numPlanilla n < numPlanilla m := by
  rw [numPlanilla_sentinel hm]
  exact hsmall

/-- C7, witness: the amended theorem applied to the names "3-Planta" and
"Planta". -/
theorem c7_priority_witness :
    hasLeadingDigits "3-Planta" = true ∧ hasLeadingDigits "Planta" = false ∧
      numPlanilla "3-Planta" < 99999 ∧
      numPlanilla "3-Planta" < numPlanilla "Planta" :=
  ⟨by decide, by decide, by decide,
    c7_priority "3-Planta" "Planta" (by decide) (by decide) (by decide)⟩

theorem length_insertSorted (r : MergedRow) (l : List MergedRow) :
    (insertSorted r l).length = l.length + 1 := by
  induction l with
  | nil => rfl
  | cons x xs ih =>
      cases hb : rowLe r x <;> simp [insertSorted, hb, ih]

theorem length_sortMerged (l : List MergedRow) :
    (sortMerged l).length = l.length := by
  induction l with
  | nil => rfl
  | cons x xs ih => rw [sortMerged_cons, length_insertSorted, ih]; rfl

theorem mergeTables_ne_nil {dfDesc : List DemandRow} (h : dfDesc ≠ [])
    (dfExist : List SupplyRow) : mergeTables dfDesc dfExist ≠ [] := by
  cases dfDesc with
  | nil => exact absurd rfl h
  | cons d ds =>
      simp only [mergeTables, List.flatMap_cons]
      apply List.append_ne_nil_of_left_ne_nil
      rcases hfil : dfExist.filter (fun s => s.item == d.item) with _ | ⟨s0, ss⟩
      · rw [hfil]
        simp
      · rw [hfil]
        simp

theorem sortMerged_ne_nil {l : List MergedRow} (h : l ≠ []) :
    sortMerged l ≠ [] := by
  intro hc
  apply h
  have := congrArg List.length hc
  rw [length_sortMerged] at this
  exact List.length_eq_zero.mp this

theorem exists_ne_nil_group {l : List MergedRow} (h : l ≠ []) :
    ∃ g ∈ groupByItem l, g ≠ [] := by
  cases l with
  | nil => exact absurd rfl h
  | cons x xs =>
      refine ⟨(x :: xs).filter (fun r => r.item == x.item), ?_, ?_⟩
      · simp only [groupByItem, distinctItems]
        exact List.mem_map_of_mem _ (List.mem_cons_self _ _)
      · have hx : x ∈ (x :: xs).filter (fun r => r.item == x.item) := by
          simp [List.mem_filter]
        exact List.ne_nil_of_mem hx

theorem processGroup_ne_nil {stock : ℤ} {g : List MergedRow} (h : g ≠ []) :
    processGroup stock g ≠ [] := by
  cases g with
  | nil => exact absurd rfl h
  | cons r rs =>
      simp only [processGroup]
      intro hc
      exact processLine_fst_ne_nil (List.append_eq_nil.mp hc).1

theorem buildLedger_columns_of_ne_nil {rows : List Segment}
    (h : rows ≠ []) : (buildLedger rows).columns = finalColumnOrder := by
  have hemp : rows.isEmpty = false := by
    cases rows with
    | nil => exact absurd rfl h
    | cons a as => rfl
  simp only [buildLedger, hemp, if_neg Bool.false_ne_true]
  decide

/-- C9, counterexample to the claim as stated: on an empty demand table
the raw row sequence is empty, so the documented output column
"MATERIAL" is entirely absent from it, yet the finishing pass silently
returns a ledger (with an empty column list) instead of failing the
run. -/
theorem c9_counterexample :
    (cruce_material_sap_procesado_con_split [] []).ledger.rows = [] ∧
      "MATERIAL" ∈ finalColumnOrder ∧
      "MATERIAL" ∉ (cruce_material_sap_procesado_con_split [] []).ledger.columns :=
  ⟨by decide, by decide, by decide⟩

/-- C9, amended: the finishing pass never fails; it restricts the ledger
to the documented output columns present among the raw rows, silently
dropping absent ones.  Whenever the demand table is nonempty, every
documented output column is present and the returned ledger's column
list is exactly the documented order. -/
theorem c9_columns (dfDesc : List DemandRow) (dfExist : List SupplyRow)
    (h : dfDesc ≠ []) :
    (cruce_material_sap_procesado_con_split dfDesc dfExist).ledger.columns =
      finalColumnOrder := by
  have h1 : dfDesc.map coerceDemandRow ≠ [] := by
    simpa using h
  have h2 : mergedOf dfDesc dfExist ≠ [] := by
    unfold mergedOf
    exact sortMerged_ne_nil (mergeTables_ne_nil h1 _)
  obtain ⟨g, hg, hgne⟩ := exists_ne_nil_group h2
  have hproc :
      (groupByItem (mergedOf dfDesc dfExist)).flatMap
        (fun g => processGroup (groupStock g) g) ≠ [] := by
    obtain ⟨seg, hseg⟩ :=
      List.exists_mem_of_ne_nil _ (processGroup_ne_nil hgne)
    exact List.ne_nil_of_mem (List.mem_flatMap.mpr ⟨g, hg, hseg⟩)
  exact buildLedger_columns_of_ne_nil hproc

/-- C9, witness: the amended theorem applied to a one-line demand
table. -/
theorem c9_columns_witness :
    exC9wDemand ≠ [] ∧
      (cruce_material_sap_procesado_con_split exC9wDemand
          []).ledger.columns = finalColumnOrder :=
  ⟨by decide, c9_columns exC9wDemand [] (by decide)⟩

/-- C10, confirmed: the pooled engine overwrites, in the caller's two
input tables, exactly the demand table's `Planilla Cantidad` column and
the supply table's `SAP` column with their numerically coerced values
(the structure-update form records that every other field of every row
is left unchanged). -/
theorem c10_input_mutation (dfDesc : List DemandRow)
    (dfExist : List SupplyRow) :
    (cruce_material_sap_procesado_con_split dfDesc dfExist).demandAfter =
        dfDesc.map (fun d =>
          { d with cantidadRaw := Cell.num (toNumericCoerce d.cantidadRaw) }) ∧
      (cruce_material_sap_procesado_con_split dfDesc dfExist).supplyAfter =
        dfExist.map (fun s =>
          { s with sapRaw := Cell.num (toNumericCoerce s.sapRaw) }) :=
  ⟨rfl, rfl⟩

/-! ## Lemmas about the matched engine -/

theorem popIdx_fst_eq_lookupIdx (idx : MasterIndex) (k : String × String) :
    (popIdx idx k).1 = lookupIdx idx k := by
  induction idx with
  | nil => rfl
  | cons kv t ih =>
      rcases kv with ⟨k', v⟩
      by_cases h : k' = k <;> simp [popIdx, lookupIdx, h, ih]

theorem popIdx_snd_keys_sublist (idx : MasterIndex) (k : String × String) :
    ((popIdx idx k).2.map Prod.fst).Sublist (idx.map Prod.fst) := by
  induction idx with
  | nil => simp [popIdx]
  | cons kv t ih =>
      rcases kv with ⟨k', v⟩
      by_cases h : k' = k
      · simp only [popIdx, if_pos h, List.map_cons]
        exact List.sublist_cons_self _ _
      · simp only [popIdx, if_neg h, List.map_cons]
        exact ih.cons₂ _

theorem not_mem_keys_popIdx {idx : MasterIndex} {k : String × String}
    {v : MasterRecord} (hnd : (idx.map Prod.fst).Nodup)
    (hl : lookupIdx idx k = some v) :
    k ∉ (popIdx idx k).2.map Prod.fst := by
  induction idx with
  | nil => simp [popIdx]
  | cons kv t ih =>
      rcases kv with ⟨k', v'⟩
      simp only [List.map_cons, List.nodup_cons] at hnd
      by_cases h : k' = k
      · subst h
        simpa [popIdx] using hnd.1
      · simp only [lookupIdx, if_neg h] at hl
        simp only [popIdx, if_neg h, List.map_cons, List.mem_cons]
        push_neg
        exact ⟨fun he => h he.symm, ih hnd.2 hl⟩

theorem lookupIdx_eq_none_of_not_mem {idx : MasterIndex}
    {k : String × String} (h : k ∉ idx.map Prod.fst) :
    lookupIdx idx k = none := by
  induction idx with
  | nil => rfl
  | cons kv t ih =>
      rcases kv with ⟨k', v⟩
      simp only [List.map_cons, List.mem_cons] at h
      push_neg at h
      have hk : k' ≠ k := fun he => h.1 he.symm
      simp [lookupIdx, hk, ih h.2]

theorem mem_keys_insertIdx {idx : MasterIndex} {k a : String × String}
    {v : MasterRecord} :
    a ∈ (insertIdx idx k v).map Prod.fst ↔
      a ∈ idx.map Prod.fst ∨ a = k := by
  induction idx with
  | nil => simp [insertIdx]
  | cons kv t ih =>
      rcases kv with ⟨k', v'⟩
      by_cases h : k' = k <;> simp [insertIdx, h, ih] <;> tauto

theorem nodup_keys_insertIdx {idx : MasterIndex} {k : String × String}
    {v : MasterRecord} (h : (idx.map Prod.fst).Nodup) :
    ((insertIdx idx k v).map Prod.fst).Nodup := by
  induction idx with
  | nil => simp [insertIdx]
  | cons kv t ih =>
      rcases kv with ⟨k', v'⟩
      simp only [List.map_cons, List.nodup_cons] at h
      by_cases hk : k' = k
      · subst hk
        have hins : insertIdx ((k', v') :: t) k' v = (k', v) :: t := by
          simp [insertIdx]
        rw [hins]
        simp only [List.map_cons, List.nodup_cons]
        exact h
      · simp only [insertIdx, if_neg hk, List.map_cons, List.nodup_cons]
        refine ⟨?_, ih h.2⟩
        intro hmem
        rcases mem_keys_insertIdx.mp hmem with hh | hh
        · exact h.1 hh
        · exact hk hh

theorem buildIndex_keys_nodup (rows : List MasterRecord) :
    ((buildIndex rows).map Prod.fst).Nodup := by
  suffices h : ∀ idx : MasterIndex, (idx.map Prod.fst).Nodup →
      ((rows.foldl (fun idx r => insertIdx idx (masterKey r) r)
          idx).map Prod.fst).Nodup by
    exact h [] (by simp)
  induction rows with
  | nil => intro idx h; simpa using h
  | cons r rs ih =>
      intro idx h
      exact ih _ (nodup_keys_insertIdx h)

theorem processStep_index (p : RunParams) (st : ProcState)
    (d : DynamicRow) :
    (processStep p st d).index = (popIdx st.index (dynKey d)).2 := by
  unfold processStep
  cases hp : (popIdx st.index (dynKey d)).1 with
  | none => simp [hp]
  | some record =>
      simp only [hp]
      split <;> rfl

theorem processStep_keys_sublist (p : RunParams) (st : ProcState)
    (d : DynamicRow) :
    ((processStep p st d).index.map Prod.fst).Sublist
      (st.index.map Prod.fst) := by
  rw [processStep_index]
  exact popIdx_snd_keys_sublist _ _

theorem stateAt_succ (p : RunParams) (master : List MasterRecord)
    (dyn : List DynamicRow) (n : ℕ) (h : n < dyn.length) :
    stateAt p master dyn (n + 1) =
      processStep p (stateAt p master dyn n) (dyn.get ⟨n, h⟩) := by
  simp [stateAt, List.getElem?_eq_getElem h, List.get_eq_getElem]

theorem stateAt_keys_nodup (p : RunParams) (master : List MasterRecord)
    (dyn : List DynamicRow) (n : ℕ) :
    (((stateAt p master dyn n).index.map Prod.fst)).Nodup := by
  induction n with
  | zero => exact buildIndex_keys_nodup master
  | succ m ih =>
      simp only [stateAt]
      cases hg : dyn.get? m with
      | none => exact ih
      | some d => exact ih.sublist (processStep_keys_sublist p _ d)

theorem not_mem_keys_stateAt_mono (p : RunParams)
    (master : List MasterRecord) (dyn : List DynamicRow)
    {k : String × String} {n n' : ℕ} (hnn : n ≤ n')
    (h : k ∉ ((stateAt p master dyn n).index.map Prod.fst)) :
    k ∉ ((stateAt p master dyn n').index.map Prod.fst) := by
  induction n', hnn using Nat.le_induction with
  | base => exact h
  | succ m hm ih =>
      intro hmem
      simp only [stateAt] at hmem
      rcases hg : dyn.get? m with _ | d
      · rw [hg] at hmem
        exact ih hmem
      · rw [hg] at hmem
        exact ih ((processStep_keys_sublist p _ d).subset hmem)

/-! ## Matched-engine claims -/

/-- C5, confirmed: within one run of `process`, if the demand line at
position `i` matches a master record (the lookup of its composite key in
the current index succeeds), then the record is popped at that step and
no later demand line with the same composite key can match: at every
later position `j` the key is no longer in the index. -/
theorem c5_consumption (p : RunParams) (master : List MasterRecord)
    (dyn : List DynamicRow) (i j : ℕ) (hij : i < j)
    (hi : i < dyn.length) (hj : j < dyn.length)
    (hkey : dynKey (dyn.get ⟨i, hi⟩) = dynKey (dyn.get ⟨j, hj⟩))
    (hmatch : lookupIdx (stateAt p master dyn i).index
        (dynKey (dyn.get ⟨i, hi⟩)) ≠ none) :
    lookupIdx (stateAt p master dyn j).index
      (dynKey (dyn.get ⟨j, hj⟩)) = none := by
  obtain ⟨v, hv⟩ := Option.ne_none_iff_exists'.mp hmatch
  have hstep : dynKey (dyn.get ⟨i, hi⟩) ∉
      ((stateAt p master dyn (i + 1)).index.map Prod.fst) := by
    rw [stateAt_succ p master dyn i hi, processStep_index]
    exact not_mem_keys_popIdx (stateAt_keys_nodup p master dyn i) hv
  have hjmem : dynKey (dyn.get ⟨i, hi⟩) ∉
      ((stateAt p master dyn j).index.map Prod.fst) :=
    not_mem_keys_stateAt_mono p master dyn (by omega) hstep
  rw [← hkey]
  exact lookupIdx_eq_none_of_not_mem hjmem

/-- C5, witness: the theorem applied to a run with two identically keyed
demand lines; the first matches, the second finds the index empty. -/
theorem c5_consumption_witness :
    lookupIdx (stateAt exC5Params exC5Master exC5Dyn 0).index
        (dynKey (exC5Dyn.get ⟨0, by decide⟩)) ≠ none ∧
      lookupIdx (stateAt exC5Params exC5Master exC5Dyn 1).index
        (dynKey (exC5Dyn.get ⟨1, by decide⟩)) = none :=
  ⟨by decide,
    c5_consumption exC5Params exC5Master exC5Dyn 0 1 (by decide) (by decide)
      (by decide) (by decide) (by decide)⟩

/-- C2, counterexample to the claim as stated: a matched demand line
whose eligibility flag is not affirmative makes `process` append the
master record unchanged (line 68), so the emitted row carries neither the
observation text nor the composite label — the stamping of lines 97-111
happens only in the quantity-allocation branch. -/
theorem c2_counterexample :
    ((process exC2xParams (buildIndex exC2xMaster) exC2xDyn).map
        (·.observacion)) = [none] ∧
      ((process exC2xParams (buildIndex exC2xMaster) exC2xDyn).map
        (·.obraTrabItem)) = [none] ∧
      (none : Option String) ≠ some "PLANILLA DESCARGUE MATERIAL" :=
  ⟨by decide, by decide, by decide⟩

/-- C2, amended: every row emitted by the quantity-allocation branch
(eligible matched lines) carries the run-level observation text, the new
work-order code, the zfill-2 job number, and the composite label built as
new work-order code, padded job number, a hyphen and the item identifier;
the non-eligible pass-through row is emitted unchanged, without them. -/
theorem c2_metadata (obs wo rawJob : String) (st : ProcState)
    (drow : DynamicRow) (record : MasterRecord)
    (hpop : (popIdx st.index (dynKey drow)).1 = some record)
    (helig : descAffirmative drow.descargable = true) :
    ∀ r ∈ emittedRows (mkParams obs wo rawJob) st drow,
      r.observacion = some obs ∧ r.nuevaObra = some wo ∧
        r.nuevoTrabajo = some (zfill 2 rawJob) ∧
        r.obraTrabItem = some (wo ++ zfill 2 rawJob ++ "-" ++ r.item) := by
  intro r hr
  simp only [emittedRows, processStep, hpop, helig, Bool.true_eq_false,
    if_false, List.drop_left] at hr
  rcases List.mem_map.mp hr with ⟨r0, _, rfl⟩
  exact ⟨rfl, rfl, rfl, rfl⟩

/-- C2, witness: the amended theorem applied to an eligible matched line;
the emitted row carries the metadata and the label "WO03-IT1". -/
theorem c2_metadata_witness :
    exC2wRow.observacion = some "OBS" ∧ exC2wRow.nuevaObra = some "WO" ∧
      exC2wRow.nuevoTrabajo = some "03" ∧
      exC2wRow.obraTrabItem = some "WO03-IT1" :=
  c2_metadata "OBS" "WO" "3" exC2wState exC2wDrow exC2wRecord (by decide)
    (by decide) exC2wRow (by decide)

/-- C4, confirmed: for an eligible matched demand line whose record
balance is strictly below the requested quantity, `process` emits exactly
two rows: a used row with quantity `max(balance, 0)`, new balance 0 and
tag "SI", then a deficit row with quantity requested minus used, new
balance the negative of that deficit, and tag "NO". -/
theorem c4_insufficient_split (p : RunParams) (st : ProcState)
    (drow : DynamicRow) (record : MasterRecord)
    (hpop : (popIdx st.index (dynKey drow)).1 = some record)
    (helig : descAffirmative drow.descargable = true)
    (hsaldo : record.saldo.getD 0 < drow.cantidad) :
    (emittedRows p st drow).length = 2 ∧
      ((emittedRows p st drow).map fun r => (r.cantDesc, r.saldo, r.cruzado)) =
        [(some (max (record.saldo.getD 0) 0), some 0, some "SI"),
         (some (drow.cantidad - max (record.saldo.getD 0) 0),
           some (-(drow.cantidad - max (record.saldo.getD 0) 0)),
           some "NO")] := by
  have hnotge : ¬ record.saldo.getD 0 ≥ drow.cantidad := not_le.mpr hsaldo
  simp only [emittedRows, processStep, hpop, helig, Bool.true_eq_false,
    if_false, List.drop_left, allocRecs, if_neg hnotge]
  exact ⟨rfl, rfl⟩

/-- C4, witness: the theorem applied to scenario D of the spec (balance
5, request 8): the used row carries quantity 5, balance 0, tag "SI"; the
deficit row carries quantity 3, balance -3, tag "NO". -/
theorem c4_insufficient_split_witness :
    (emittedRows exC4wParams exC4wState exC4wDrow).length = 2 ∧
      ((emittedRows exC4wParams exC4wState exC4wDrow).map fun r =>
          (r.cantDesc, r.saldo, r.cruzado)) =
        [(some 5, some 0, some "SI"), (some 3, some (-3), some "NO")] :=
  c4_insufficient_split exC4wParams exC4wState exC4wDrow exC4wRecord
    (by decide) (by decide) (by decide)

/-- C8, counterexample to the claim as stated: a master record whose date
failed parsing, matched by a non-eligible demand line, is passed through
with its raw NaT date cell; the emitted row does not carry the empty
string, because the date formatting of lines 106-110 happens only in the
quantity-allocation branch. -/
theorem c8_counterexample :
    ((process exC8Params (buildIndex exC8xMaster) exC8xDyn).map
        (·.fecha)) = [DateCell.nat] ∧
      DateCell.nat ≠ DateCell.txt "" :=
  ⟨by decide, by decide⟩

/-- C8, amended: rows emitted by the quantity-allocation branch carry the
date as text — the empty string when the record's date failed day-first
parsing, and the `dd/mm/yyyy` rendering otherwise; pass-through rows and
unmatched master records keep the raw parsed value (NaT on failure)
unchanged. -/
theorem c8_date (p : RunParams) (st : ProcState) (drow : DynamicRow)
    (record : MasterRecord)
    (hpop : (popIdx st.index (dynKey drow)).1 = some record)
    (helig : descAffirmative drow.descargable = true) :
    ∀ r ∈ emittedRows p st drow,
      r.fecha = DateCell.txt (formatFecha record.fecha) := by
  intro r hr
  simp only [emittedRows, processStep, hpop, helig, Bool.true_eq_false,
    if_false, List.drop_left] at hr
  rcases List.mem_map.mp hr with ⟨r0, hr0, rfl⟩
  have hf : r0.fecha = (passThrough record).fecha := by
    by_cases hge : record.saldo.getD 0 ≥ drow.cantidad
    · simp only [allocRecs, if_pos hge, List.mem_singleton] at hr0
      subst hr0
      rfl
    · simp only [allocRecs, if_neg hge, List.mem_cons,
        List.mem_singleton, List.not_mem_nil, or_false] at hr0
      rcases hr0 with rfl | rfl <;> rfl
  show DateCell.txt (stampFecha r0.fecha) = DateCell.txt (formatFecha record.fecha)
  rw [hf]
  cases hrf : record.fecha <;> simp [passThrough, stampFecha, formatFecha, hrf]

/-- C8, witness: the amended theorem applied to an eligible line matching
a record with an unparseable date; the emitted row's date cell is the
empty text. -/
theorem c8_date_witness :
    exC8wRecord.fecha = none ∧ exC8wRow.fecha = DateCell.txt "" :=
  ⟨by decide,
    c8_date exC8Params exC8wState exC8wDrow exC8wRecord (by decide)
      (by decide) exC8wRow (by decide)⟩

